import Mathlib

/-!
Shallow embedding of the slp-parser web application.

The embedding models, directly from the TypeScript sources:
  * the two revisions of the upload endpoint in src/pages/api/parse-replay.ts
    (the single-.slp revision, `slpHandler`, and the zip-batch revision,
    `zipHandler`);
  * the sample-data listing endpoint in src/pages/api/sample-data.ts;
  * the statistics helpers calculateAverage / calculateMedian of the
    ReplayDataSummary component;
  * the replay data shape and the winner determination read from the stocks
    list, shared by the aggregation components;
  * the CharacterBreakdown and MatchupAnalysis aggregation and sorting;
  * the FileUpload picker with the MAX_FILES cap.

Modelling conventions: JS numbers are modelled as rationals (exact
arithmetic; the identities proved are those of real arithmetic, which the
floating point code approximates); fallible external calls
(parseSlippiReplay, fs.readdir, unzipFile, fs.unlinkSync) are oracles
passed as parameters, with Option encoding a thrown exception; the payload
returned by the external parser is opaque and modelled as a Nat.
-/

namespace SlpModel

/-- Model of the JS String.prototype.endsWith check, on the character list. -/
def strEndsWith (s suf : String) : Bool := suf.data.isSuffixOf s.data

/-- Opaque payload produced by the external replay parser. -/
abbrev ParsedData := Nat

/-- Raw bytes of one archive entry (content of a temp file). -/
abbrev ByteData := List Nat

/-- One file of the parsed multipart form (formidable File object). -/
structure UploadedFile where
  originalFilename : Option String
  filepath : String
  deriving DecidableEq

/-- One element of the results array built by the zip-batch handler. -/
inductive ResultEntry where
  | parsed (filename : String) (data : ParsedData)
  | failed (filename : String) (error : String)
  deriving DecidableEq

/-- JSON body of a response of one of the API handlers. -/
inductive RespBody where
  | message (msg : String)
  | payload (data : ParsedData)
  | results (entries : List ResultEntry)
  | fileList (names : List String)
  deriving DecidableEq

/-- An HTTP response: status code and JSON body. -/
structure Response where
  status : Nat
  body : RespBody
  deriving DecidableEq

/-- File-system side effects performed by a handler, in order. -/
inductive Ev where
  | write (path : String)
  | parseCall (path : String)
  | unlink (path : String) (ok : Bool)
  deriving DecidableEq

/-- Configuration passed to formidable IncomingForm in both revisions of
src/pages/api/parse-replay.ts. -/
structure FormConfig where
  keepExtensions : Bool
  maxFileSize : Nat
  deriving DecidableEq

/-- The IncomingForm options of the single-.slp revision (lines 21-24). -/
def slpFormConfig : FormConfig := { keepExtensions := true, maxFileSize := 10 * 1024 * 1024 }

/-- The IncomingForm options of the zip-batch revision (lines 95-98). -/
def zipFormConfig : FormConfig := { keepExtensions := true, maxFileSize := 10 * 1024 * 1024 }

/-- Request-level inputs of the single-.slp revision of the handler.
`formErr` is true when form.parse reports an error (for example an upload
over the configured maxFileSize); `replayFile` is the files.replayFile
field, none when absent. -/
structure SlpReq where
  method : String
  formErr : Bool
  replayFile : Option (List UploadedFile)

/-- The single-.slp revision of the parse-replay handler
(src/pages/api/parse-replay.ts, first revision). `parse` is the
parseSlippiReplay oracle keyed by the temp file path (none models a thrown
exception); `unlinkOk` tells whether fs.unlinkSync succeeds on a path.
Returns the response and the ordered file-system event trace. -/
def slpHandler (req : SlpReq) (parse : String → Option ParsedData)
    (unlinkOk : String → Bool) : Response × List Ev :=
  if req.method ≠ "POST" then (⟨405, .message "Method not allowed"⟩, [])
  else if req.formErr then (⟨500, .message "Error parsing form data"⟩, [])
  else
    match req.replayFile with
    | none => (⟨400, .message "No replay file uploaded"⟩, [])
    | some [] => (⟨400, .message "No replay file uploaded"⟩, [])
    | some (file :: _) =>
      if (match file.originalFilename with
          | some n => strEndsWith n ".slp"
          | none => false) = false then
        (⟨400, .message "Only .slp files are accepted"⟩, [])
      else
        match parse file.filepath with
        | some d =>
          (⟨200, .payload d⟩,
            [.parseCall file.filepath, .unlink file.filepath (unlinkOk file.filepath)])
        | none =>
          (⟨500, .message "Error parsing replay file"⟩, [.parseCall file.filepath])

/-- Request-level inputs of the zip-batch revision. `unzipped` is the
outcome of fs.readFileSync plus unzipFile on the uploaded temp file: none
when either throws, otherwise the archive entries in order (Object.entries
of the fflate result). `env` is process.env.APP_ENV and `cwd` is
process.cwd(). -/
structure ZipReq where
  method : String
  formErr : Bool
  replayFile : Option (List UploadedFile)
  unzipped : Option (List (String × ByteData))
  env : String
  cwd : String

/-- Temp path chosen for one archive entry (parse-replay.ts, zip revision,
lines 132-137): path.join(cwd, "tmp_" + filename) in development, else
path.join("/tmp", "tmp_" + filename). -/
def tmpPath (env cwd filename : String) : String :=
  if env = "development" then cwd ++ "/tmp_" ++ filename
  else "/tmp/tmp_" ++ filename

/-- The per-entry loop of the zip-batch handler (lines 129-149): for each
.slp entry write a temp file, try parseSlippiReplay, record the result or
the per-file error, and attempt to delete the temp file in both cases.
The parse oracle is keyed by the entry bytes, since the temp file read by
parseSlippiReplay holds exactly those bytes. -/
def zipBatch (parse : ByteData → Option ParsedData) (unlinkOk : String → Bool)
    (env cwd : String) : List (String × ByteData) → List ResultEntry × List Ev
  | [] => ([], [])
  | (filename, data) :: rest =>
    let r := zipBatch parse unlinkOk env cwd rest
    if strEndsWith filename ".slp" then
      let p := tmpPath env cwd filename
      ((match parse data with
        | some d => ResultEntry.parsed filename d
        | none => ResultEntry.failed filename "Failed to parse") :: r.1,
        Ev.write p :: Ev.parseCall p :: Ev.unlink p (unlinkOk p) :: r.2)
    else r

/-- The zip-batch revision of the parse-replay handler
(src/pages/api/parse-replay.ts, second revision). -/
def zipHandler (req : ZipReq) (parse : ByteData → Option ParsedData)
    (unlinkOk : String → Bool) : Response × List Ev :=
  if req.method ≠ "POST" then (⟨405, .message "Method not allowed"⟩, [])
  else if req.formErr then (⟨500, .message "Error parsing form data"⟩, [])
  else
    match req.replayFile with
    | none => (⟨400, .message "No replay file uploaded"⟩, [])
    | some [] => (⟨400, .message "No replay file uploaded"⟩, [])
    | some (file :: _) =>
      if (match file.originalFilename with
          | some n => strEndsWith n ".zip"
          | none => false) = false then
        (⟨400, .message "Only .zip files are accepted"⟩, [])
      else
        match req.unzipped with
        | none => (⟨500, .message "Error parsing replay file"⟩, [])
        | some entries =>
          let r := zipBatch parse unlinkOk req.env req.cwd entries
          (⟨200, .results r.1⟩,
            r.2 ++ [Ev.unlink file.filepath (unlinkOk file.filepath)])

/-- The sample-data endpoint (src/pages/api/sample-data.ts): `readdir` is
the outcome of fs.readdir on the static assets directory, none when it
throws. -/
def sampleDataHandler (readdir : Option (List String)) : Response :=
  match readdir with
  | some files => ⟨200, .fileList (files.filter (fun f => strEndsWith f ".slp"))⟩
  | none => ⟨500, .message "Failed to list sample files"⟩

/-- calculateAverage of the ReplayDataSummary component:
data.reduce((sum, val) => sum + val, 0) / data.length. -/
def calculateAverage (data : List ℚ) : ℚ :=
  data.foldl (fun sum val => sum + val) 0 / (data.length : ℚ)

/-- The ascending numeric sort [...data].sort((a, b) => a - b) used by
calculateMedian: a stable sort whose comparator orders numbers
ascending. -/
def jsSortNumAsc (data : List ℚ) : List ℚ :=
  data.mergeSort (fun a b => decide (a ≤ b))

/-- calculateMedian of the ReplayDataSummary component. The source indexes
sorted[mid - 1] and sorted[mid]; on the empty list the JS code reads
index -1 (undefined), modelled here by the default 0 (the claims only
concern non-empty input). -/
def calculateMedian (data : List ℚ) : ℚ :=
  let sorted := jsSortNumAsc data
  let mid := sorted.length / 2
  if sorted.length % 2 = 0 then (sorted.getD (mid - 1) 0 + sorted.getD mid 0) / 2
  else sorted.getD mid 0

/-- calculateMedian together with the final value of the `data` binding of the caller
binding: the source sorts a copy ([...data].sort), so the input array is
left unchanged. -/
def calculateMedianState (data : List ℚ) : ℚ × List ℚ :=
  let copy := data
  let sorted := jsSortNumAsc copy
  let mid := sorted.length / 2
  ((if sorted.length % 2 = 0 then (sorted.getD (mid - 1) 0 + sorted.getD mid 0) / 2
    else sorted.getD mid 0), data)

/-! ### FileUpload picker (MAX_FILES revision, in src/components/ReplayDetails.tsx) -/

/-- The batch cap of the file picker. -/
def MAX_FILES : Nat := 100

/-- A browser File object, as far as the picker inspects it. -/
structure JsFile where
  name : String
  deriving DecidableEq

/-- The .slp name filter applied to an incoming FileList. -/
def filterValid (incoming : List JsFile) : List JsFile :=
  incoming.filter (fun f => strEndsWith f.name ".slp")

/-- handleDrop: append the valid incoming files; when the combined list
exceeds MAX_FILES keep only its first MAX_FILES files (slice(0, MAX_FILES));
when no incoming file is valid the selection is unchanged. -/
def handleDrop (prev incoming : List JsFile) : List JsFile :=
  let validFiles := filterValid incoming
  if validFiles.length > 0 then
    let combined := prev ++ validFiles
    if combined.length > MAX_FILES then combined.take MAX_FILES else combined
  else prev

/-- handleFileChange: as handleDrop, except the source always returns
combined.slice(0, MAX_FILES), which is the whole list when it is short
enough. -/
def handleFileChange (prev incoming : List JsFile) : List JsFile :=
  let validFiles := filterValid incoming
  if validFiles.length > 0 then (prev ++ validFiles).take MAX_FILES
  else prev

/-- One user interaction with the picker. -/
inductive PickEvent where
  | drop (files : List JsFile)
  | select (files : List JsFile)
  | clearSelection

/-- State transition of the selectedFiles state for one interaction. -/
def pickStep (prev : List JsFile) : PickEvent → List JsFile
  | .drop fs => handleDrop prev fs
  | .select fs => handleFileChange prev fs
  | .clearSelection => []

/-- The selectedFiles state after a sequence of interactions, starting
from the initial empty selection. -/
def runPicker (events : List PickEvent) : List JsFile :=
  events.foldl pickStep []

/-- handleSubmit: the list handed to onFileUpload, none when the selection
is empty (the button only submits a non-empty selection). -/
def handleSubmit (selected : List JsFile) : Option (List JsFile) :=
  if selected.length > 0 then some selected else none

/-! ### Replay data model and winner determination -/

/-- One stock-loss event, as far as the components inspect it. -/
structure Stock where
  playerIndex : Int
  deriving DecidableEq

/-- Per-player overall statistics; of the ratio records only the .ratio
field is read by the aggregations, so each is modelled by that number. -/
structure OverallStats where
  playerIndex : Int
  damagePerOpening : ℚ
  openingsPerKill : ℚ
  inputsPerMinute : ℚ
  totalDamage : ℚ
  deriving DecidableEq

/-- One entry of settings.players. -/
structure SettingsPlayer where
  playerIndex : Int
  characterId : Nat
  deriving DecidableEq

/-- One entry of metadata.players (only names.code is read). -/
structure MetaPlayer where
  code : String
  deriving DecidableEq

/-- The ReplayData shape consumed by the aggregation components. -/
structure Replay where
  metaPlayers : List MetaPlayer
  settingsPlayers : List SettingsPlayer
  overall : List OverallStats
  stocks : List Stock
  deriving DecidableEq

/-- JS array indexing by a possibly negative index: undefined when out of
bounds. -/
def listGetInt (l : List α) (i : Int) : Option α :=
  if i < 0 then none else l.get? i.toNat

/-- The read stocks[stocks.length - 1] shared by all three aggregation
components; none models the undefined result of an out-of-bounds index. -/
def lastStock (stocks : List Stock) : Option Stock :=
  stocks.get? (stocks.length - 1)

/-- The isWinner test of CharacterBreakdown (lines 96-99) and
MatchupAnalysis (lines 166-169): the player wins when the last stock lost
is not theirs. none models the TypeError thrown when the stocks list is
empty. -/
def isWinner (stocks : List Stock) (playerIndex : Int) : Option Bool :=
  (lastStock stocks).map (fun s => s.playerIndex != playerIndex)

/-- The winnerIndex read of ReplayDataSummary (src/unnamed/part_001,
lines 141-145): stocks[stocks.length - 1].playerIndex. -/
def winnerIndex (stocks : List Stock) : Option Int :=
  (lastStock stocks).map (fun s => s.playerIndex)

/-! ### Assoc-map model of the plain-object accumulators -/

/-- Membership test !statsMap[key] (for the accumulator records no falsy
value other than a missing entry occurs). -/
def containsKey [DecidableEq κ] (m : List (κ × α)) (k : κ) : Bool :=
  m.any (fun e => e.1 = k)

/-- In-place mutation statsMap[key] = f(statsMap[key]). -/
def updateAssoc [DecidableEq κ] (m : List (κ × α)) (k : κ) (f : α → α) :
    List (κ × α) :=
  m.map (fun e => if e.1 = k then (e.1, f e.2) else e)

/-- Object.values for a record with numeric keys: integer-like keys are
enumerated in ascending numeric order. -/
def objValuesNat (m : List (Nat × α)) : List α :=
  (m.mergeSort (fun a b => decide (a.1 ≤ b.1))).map (fun e => e.2)

/-- Object.values for a record with (non-numeric) string keys: insertion
order. -/
def objValuesStr (m : List (String × α)) : List α :=
  m.map (fun e => e.2)

/-! ### CharacterBreakdown aggregation (src/components/CharacterBreakdown.tsx) -/

/-- The per-character accumulator record of the CharacterBreakdown
reduction (lines 32-45). -/
structure CBAcc where
  characterId : Nat
  totalGames : ℚ
  wins : ℚ
  losses : ℚ
  totalDamagePerOpening : ℚ
  openingsCount : ℚ
  openingsPerKillTotal : ℚ
  killsCount : ℚ
  inputsPerMinuteTotal : ℚ
  deriving DecidableEq

/-- The freshly initialised accumulator (lines 75-87). -/
def initCBAcc (cid : Nat) : CBAcc :=
  ⟨cid, 0, 0, 0, 0, 0, 0, 0, 0⟩

abbrev CBMap := List (Nat × CBAcc)

/-- The accumulator update of lines 101-126. The truthiness guards
playerStats.damagePerOpening?.ratio and friends are the tests ratio ≠ 0. -/
def bumpCBAcc (isW : Bool) (ps : OverallStats) (a : CBAcc) : CBAcc :=
  { a with
    totalGames := a.totalGames + 1
    wins := if isW then a.wins + 1 else a.wins
    losses := if isW then a.losses else a.losses + 1
    totalDamagePerOpening :=
      if ps.damagePerOpening ≠ 0 then a.totalDamagePerOpening + ps.damagePerOpening
      else a.totalDamagePerOpening
    openingsCount :=
      if ps.damagePerOpening ≠ 0 then a.openingsCount + 1 else a.openingsCount
    openingsPerKillTotal :=
      if ps.openingsPerKill ≠ 0 then a.openingsPerKillTotal + ps.openingsPerKill
      else a.openingsPerKillTotal
    killsCount :=
      if ps.openingsPerKill ≠ 0 then a.killsCount + 1 else a.killsCount
    inputsPerMinuteTotal :=
      if ps.inputsPerMinute ≠ 0 then a.inputsPerMinuteTotal + ps.inputsPerMinute
      else a.inputsPerMinuteTotal }

/-- The body of playerIndices.forEach (lines 65-127) for one playerIndex:
resolve the characterId, initialise the map entry if needed, find the
player stats, determine the winner from the stocks and bump the entry.
none models the TypeError thrown by the lastStock read on an empty stocks
list. -/
def cbProcessPlayer (replay : Replay) (m : CBMap) (playerIndex : Int) :
    Option CBMap :=
  if playerIndex = -1 then some m
  else
    match (replay.settingsPlayers.find? (fun p => p.playerIndex = playerIndex)).map
        (fun p => p.characterId) with
    | none => some m
    | some characterId =>
      let m1 := if containsKey m characterId then m
        else m ++ [(characterId, initCBAcc characterId)]
      match replay.overall.find? (fun p => p.playerIndex = playerIndex) with
      | none => some m1
      | some playerStats =>
        match isWinner replay.stocks playerIndex with
        | none => none
        | some isW => some (updateAssoc m1 characterId (bumpCBAcc isW playerStats))

/-- selectedPlayerIndex (lines 50-56): findIndex over settings.players of
the player whose metadata entry carries the selected code; -1 when absent
(the metadata lookup uses optional chaining, so a missing entry simply
does not match). -/
def cbSelectedPlayerIndex (replay : Replay) (code : String) : Int :=
  match replay.settingsPlayers.findIdx? (fun p =>
      match listGetInt replay.metaPlayers p.playerIndex with
      | some mp => mp.code = code
      | none => false) with
  | some i => Int.ofNat i
  | none => -1

/-- The playerIndices iterated for one replay (lines 59-63): none when the
guard selectedPlayer === null || selectedPlayerIndex !== -1 fails and the
replay is skipped. -/
def cbPlayerIndices (sp : Option String) (replay : Replay) : Option (List Int) :=
  match sp with
  | none => some (replay.settingsPlayers.map (fun p => p.playerIndex))
  | some code =>
    let idx := cbSelectedPlayerIndex replay code
    if idx = -1 then none else some [idx]

/-- The playerIndices.forEach loop over one replay. -/
def cbListLoop (replay : Replay) : List Int → CBMap → Option CBMap
  | [], m => some m
  | i :: rest, m =>
    match cbProcessPlayer replay m i with
    | none => none
    | some m2 => cbListLoop replay rest m2

/-- Processing of one replay (lines 48-129). -/
def cbProcessReplay (sp : Option String) (replay : Replay) (m : CBMap) :
    Option CBMap :=
  match cbPlayerIndices sp replay with
  | none => some m
  | some idxs => cbListLoop replay idxs m

/-- The replayDataList.forEach reduction, starting from the empty map. -/
def cbReplaysLoop (sp : Option String) : List Replay → CBMap → Option CBMap
  | [], m => some m
  | r :: rest, m =>
    match cbProcessReplay sp r m with
    | none => none
    | some m2 => cbReplaysLoop sp rest m2

/-- One row of the Character Breakdown table. -/
structure CBRow where
  characterId : Nat
  characterName : String
  totalGames : ℚ
  wins : ℚ
  losses : ℚ
  winRate : ℚ
  averageDamagePerOpening : ℚ
  averageOpeningsPerKill : ℚ
  averageInputsPerMinute : ℚ
  deriving DecidableEq

/-- The row built from one accumulator (lines 132-154). `charName` is the
external characters.getCharacterName table. -/
def mkCBRow (charName : Nat → String) (a : CBAcc) : CBRow :=
  { characterId := a.characterId
    characterName := charName a.characterId
    totalGames := a.totalGames
    wins := a.wins
    losses := a.losses
    winRate := if a.totalGames > 0 then a.wins / a.totalGames * 100 else 0
    averageDamagePerOpening :=
      if a.openingsCount > 0 then a.totalDamagePerOpening / a.openingsCount else 0
    averageOpeningsPerKill :=
      if a.killsCount > 0 then a.openingsPerKillTotal / a.killsCount else 0
    averageInputsPerMinute :=
      if a.totalGames > 0 then a.inputsPerMinuteTotal / a.totalGames else 0 }

/-- The unsorted row list Object.values(statsMap).map(...). -/
def cbRows (charName : Nat → String) (m : CBMap) : List CBRow :=
  (objValuesNat m).map (mkCBRow charName)

/-! ### Sorting of the tables -/

inductive SortDir where
  | asc
  | desc
  deriving DecidableEq

/-- Numeric comparator (a, b) => aValue - bValue, resp. bValue - aValue,
as a boolean "in order" test on adjacent elements. -/
def qLe (dir : SortDir) (x y : ℚ) : Bool :=
  match dir with
  | .asc => decide (x ≤ y)
  | .desc => decide (y ≤ x)

/-- Numeric comparator on the integer characterId column. -/
def natColLe (dir : SortDir) (x y : Nat) : Bool :=
  match dir with
  | .asc => decide (x ≤ y)
  | .desc => decide (y ≤ x)

/-- String comparator of the sort fallback branch: code-point-wise
lexicographic order, the collation model used here for
String.prototype.localeCompare. -/
def strColLe (dir : SortDir) (x y : String) : Bool :=
  match dir with
  | .asc => decide (x.data ≤ y.data)
  | .desc => decide (y.data ≤ x.data)

/-- The sortable columns of the Character Breakdown table (the keys of
CharacterStats). -/
inductive CBCol where
  | characterId
  | characterName
  | totalGames
  | wins
  | losses
  | winRate
  | averageDamagePerOpening
  | averageOpeningsPerKill
  | averageInputsPerMinute
  deriving DecidableEq

/-- The comparator of lines 157-169 as an "in order" test: numeric columns
compare numerically in the selected direction, the string column by the
string order. -/
def cbColLe (col : CBCol) (dir : SortDir) (a b : CBRow) : Bool :=
  match col with
  | .characterId => natColLe dir a.characterId b.characterId
  | .characterName => strColLe dir a.characterName b.characterName
  | .totalGames => qLe dir a.totalGames b.totalGames
  | .wins => qLe dir a.wins b.wins
  | .losses => qLe dir a.losses b.losses
  | .winRate => qLe dir a.winRate b.winRate
  | .averageDamagePerOpening => qLe dir a.averageDamagePerOpening b.averageDamagePerOpening
  | .averageOpeningsPerKill => qLe dir a.averageOpeningsPerKill b.averageOpeningsPerKill
  | .averageInputsPerMinute => qLe dir a.averageInputsPerMinute b.averageInputsPerMinute

/-- The sortedStats computation [...characterStatsArray].sort(...). -/
def cbSort (col : CBCol) (dir : SortDir) (rows : List CBRow) : List CBRow :=
  rows.mergeSort (cbColLe col dir)

/-- Initial value of the sortBy state (line 25). -/
def cbDefaultSortBy : CBCol := .totalGames

/-- Initial value of the sortDir state (line 26). -/
def cbDefaultSortDir : SortDir := .desc

/-! ### MatchupAnalysis aggregation (src/unnamed/part_002) -/

/-- The per-matchup accumulator record (lines 83-94). -/
structure MUAcc where
  characterId : Nat
  opponentCharacterId : Nat
  totalGames : ℚ
  wins : ℚ
  losses : ℚ
  totalDamageDealt : ℚ
  totalDamageTaken : ℚ
  deriving DecidableEq

/-- The freshly initialised matchup accumulator (lines 144-154). -/
def initMUAcc (cid ocid : Nat) : MUAcc :=
  ⟨cid, ocid, 0, 0, 0, 0, 0⟩

/-- The template-string key playerCharacterId-opponentCharacterId
(line 141). -/
def muKey (cid ocid : Nat) : String :=
  toString cid ++ "-" ++ toString ocid

abbrev MUMap := List (String × MUAcc)

/-- The accumulator update of lines 171-181. The || 0 fallbacks on
totalDamage are the identity in the rational model. -/
def bumpMUAcc (isW : Bool) (ps os : OverallStats) (a : MUAcc) : MUAcc :=
  { a with
    totalGames := a.totalGames + 1
    wins := if isW then a.wins + 1 else a.wins
    losses := if isW then a.losses else a.losses + 1
    totalDamageDealt := a.totalDamageDealt + ps.totalDamage
    totalDamageTaken := a.totalDamageTaken + os.totalDamage }

/-- The two-element array [metadata.players[0], metadata.players[1]] of
lines 106-109; a missing entry is modelled as an absent element that does
not match the find predicate (the source would read .names of undefined
there). -/
def muPlayers (replay : Replay) : List (Option MetaPlayer) :=
  [replay.metaPlayers.get? 0, replay.metaPlayers.get? 1]

/-- players.find(p => p.names.code === selectedPlayer) combined with
players.indexOf of the found entry (lines 110-113). -/
def muFindPlayerIdx (replay : Replay) (code : String) : Option Nat :=
  (muPlayers replay).findIdx? (fun op =>
    match op with
    | some mp => mp.code = code
    | none => false)

/-- The player/opponent index selection of lines 101-127: by selected
player when one is set, otherwise by selected character, otherwise the
replay is skipped; none means the replay contributes nothing. -/
def muIndices (sp : Option String) (selChar : Option Nat) (replay : Replay) :
    Option (Int × Int) :=
  match sp with
  | some code =>
    match muFindPlayerIdx replay code with
    | none => none
    | some i => some (Int.ofNat i, if i = 0 then 1 else 0)
  | none =>
    match selChar with
    | some cid =>
      match replay.settingsPlayers.findIdx? (fun p => p.characterId = cid) with
      | none => none
      | some i => some (Int.ofNat i, if i = 0 then 1 else 0)
    | none => none

/-- Processing of one replay by the matchup reduction (lines 97-182).
none models the TypeError of the lastStock read on an empty stocks
list. -/
def muProcessReplay (sp : Option String) (selChar : Option Nat)
    (replay : Replay) (m : MUMap) : Option MUMap :=
  if replay.settingsPlayers.length ≠ 2 then some m
  else
    match muIndices sp selChar replay with
    | none => some m
    | some (playerIndex, opponentIndex) =>
      match (listGetInt replay.settingsPlayers playerIndex).map (fun p => p.characterId),
          (listGetInt replay.settingsPlayers opponentIndex).map (fun p => p.characterId) with
      | some pcid, some ocid =>
        if (match selChar with
            | some c => decide (pcid ≠ c)
            | none => false) then some m
        else
          let key := muKey pcid ocid
          let m1 := if containsKey m key then m else m ++ [(key, initMUAcc pcid ocid)]
          match replay.overall.find? (fun p => p.playerIndex = playerIndex),
              replay.overall.find? (fun p => p.playerIndex = opponentIndex) with
          | some ps, some os =>
            match isWinner replay.stocks playerIndex with
            | none => none
            | some isW => some (updateAssoc m1 key (bumpMUAcc isW ps os))
          | _, _ => some m1
      | _, _ => some m

/-- The replayDataList.forEach reduction of the matchup component,
starting from the empty map. -/
def muReplaysLoop (sp : Option String) (selChar : Option Nat) :
    List Replay → MUMap → Option MUMap
  | [], m => some m
  | r :: rest, m =>
    match muProcessReplay sp selChar r m with
    | none => none
    | some m2 => muReplaysLoop sp selChar rest m2

/-- One row of the Matchup Analysis table. -/
structure MURow where
  characterId : Nat
  characterName : String
  opponentCharacterId : Nat
  opponentCharacterName : String
  totalGames : ℚ
  wins : ℚ
  losses : ℚ
  winRate : ℚ
  averageDamageDealt : ℚ
  averageDamageTaken : ℚ
  damageRatio : ℚ
  deriving DecidableEq

/-- The row built from one matchup accumulator (lines 185-207). -/
def mkMURow (charName : Nat → String) (a : MUAcc) : MURow :=
  { characterId := a.characterId
    characterName := charName a.characterId
    opponentCharacterId := a.opponentCharacterId
    opponentCharacterName := charName a.opponentCharacterId
    totalGames := a.totalGames
    wins := a.wins
    losses := a.losses
    winRate := if a.totalGames > 0 then a.wins / a.totalGames * 100 else 0
    averageDamageDealt :=
      if a.totalGames > 0 then a.totalDamageDealt / a.totalGames else 0
    averageDamageTaken :=
      if a.totalGames > 0 then a.totalDamageTaken / a.totalGames else 0
    damageRatio :=
      if a.totalDamageTaken > 0 then a.totalDamageDealt / a.totalDamageTaken else 0 }

/-- The unsorted row list Object.values(statsMap).map(...); the keys are
non-numeric strings, so Object.values enumerates in insertion order. -/
def muRows (charName : Nat → String) (m : MUMap) : List MURow :=
  (objValuesStr m).map (mkMURow charName)

/-- The sortable columns of the Matchup Analysis table (the keys of
MatchupStats). -/
inductive MUCol where
  | characterId
  | characterName
  | opponentCharacterId
  | opponentCharacterName
  | totalGames
  | wins
  | losses
  | winRate
  | averageDamageDealt
  | averageDamageTaken
  | damageRatio
  deriving DecidableEq

/-- The comparator of lines 210-221 as an "in order" test. -/
def muColLe (col : MUCol) (dir : SortDir) (a b : MURow) : Bool :=
  match col with
  | .characterId => natColLe dir a.characterId b.characterId
  | .characterName => strColLe dir a.characterName b.characterName
  | .opponentCharacterId => natColLe dir a.opponentCharacterId b.opponentCharacterId
  | .opponentCharacterName => strColLe dir a.opponentCharacterName b.opponentCharacterName
  | .totalGames => qLe dir a.totalGames b.totalGames
  | .wins => qLe dir a.wins b.wins
  | .losses => qLe dir a.losses b.losses
  | .winRate => qLe dir a.winRate b.winRate
  | .averageDamageDealt => qLe dir a.averageDamageDealt b.averageDamageDealt
  | .averageDamageTaken => qLe dir a.averageDamageTaken b.averageDamageTaken
  | .damageRatio => qLe dir a.damageRatio b.damageRatio

/-- The sortedStats computation [...matchupStatsArray].sort(...). -/
def muSort (col : MUCol) (dir : SortDir) (rows : List MURow) : List MURow :=
  rows.mergeSort (muColLe col dir)

/-- Initial value of the sortBy state (line 30). -/
def muDefaultSortBy : MUCol := .totalGames

/-- Initial value of the sortDir state (line 31). -/
def muDefaultSortDir : SortDir := .desc

/-! ## Helper lemmas -/

/-- The results list of the batch loop is exactly the in-order image of
the .slp entries of the archive. -/
theorem zipBatch_results_eq (parse : ByteData → Option ParsedData)
    (unlinkOk : String → Bool) (env cwd : String) :
    ∀ entries : List (String × ByteData),
      (zipBatch parse unlinkOk env cwd entries).1 =
        entries.filterMap (fun e =>
          if strEndsWith e.1 ".slp" then
            some (match parse e.2 with
              | some d => ResultEntry.parsed e.1 d
              | none => ResultEntry.failed e.1 "Failed to parse")
          else none) := by
  intro entries
  induction entries with
  | nil => rfl
  | cons e rest ih =>
    obtain ⟨filename, data⟩ := e
    by_cases h : strEndsWith filename ".slp" = true
    · simp only [zipBatch, h, if_true, List.filterMap_cons]
      rw [ih]
    · simp only [zipBatch, h, if_false, Bool.false_eq_true, List.filterMap_cons]
      exact ih

/-! ## Claims -/

/-- C7: on a successful directory read the sample-data endpoint responds
200 with exactly the directory entries whose names end in ".slp" (each
such entry appears, no other appears); on a failed read it responds
500. -/
theorem sampleData_lists_exactly_slp (files : List String) :
    sampleDataHandler (some files) =
        ⟨200, .fileList (files.filter (fun f => strEndsWith f ".slp"))⟩ ∧
      (∀ f, f ∈ files.filter (fun f => strEndsWith f ".slp") ↔
        f ∈ files ∧ strEndsWith f ".slp" = true) ∧
      sampleDataHandler none = ⟨500, .message "Failed to list sample files"⟩ := by
  refine ⟨rfl, ?_, rfl⟩
  intro f
  exact List.mem_filter

/-- C6: both revisions of the upload endpoint configure the multipart form
with a 10 * 1024 * 1024 byte file-size cap, and whenever form parsing
reports an error on a POST request the response is 500 with message
"Error parsing form data" and the event trace is empty, so the replay
parser is never invoked. -/
theorem upload_form_cap_and_form_error :
    slpFormConfig.maxFileSize = 10 * 1024 * 1024 ∧
      zipFormConfig.maxFileSize = 10 * 1024 * 1024 ∧
      (∀ (req : SlpReq) (parse : String → Option ParsedData)
          (unlinkOk : String → Bool), req.method = "POST" → req.formErr = true →
        slpHandler req parse unlinkOk =
          (⟨500, .message "Error parsing form data"⟩, [])) ∧
      (∀ (req : ZipReq) (parse : ByteData → Option ParsedData)
          (unlinkOk : String → Bool), req.method = "POST" → req.formErr = true →
        zipHandler req parse unlinkOk =
          (⟨500, .message "Error parsing form data"⟩, [])) := by
  refine ⟨rfl, rfl, ?_, ?_⟩ <;>
    · intro req parse unlinkOk hm hf
      simp [slpHandler, zipHandler, hm, hf]

/-- C6 witness: a concrete POST request with a failing form parse. -/
theorem upload_form_cap_witness :
    slpHandler { method := "POST", formErr := true, replayFile := none }
        (fun _ => none) (fun _ => true) =
      (⟨500, .message "Error parsing form data"⟩, []) :=
  upload_form_cap_and_form_error.2.2.1
    { method := "POST", formErr := true, replayFile := none }
    (fun _ => none) (fun _ => true) rfl rfl

/-- C2: on a POST whose form parsed, the single-.slp revision of the
upload endpoint responds 400 "No replay file uploaded" when the
replayFile field is absent or empty, and 400 "Only .slp files are
accepted" when the first uploaded file has no original filename or one
not ending in ".slp"; in both cases the event trace is empty, so the
replay parser is never invoked. -/
theorem slp_upload_rejects (req : SlpReq) (parse : String → Option ParsedData)
    (unlinkOk : String → Bool)
    (hm : req.method = "POST") (hf : req.formErr = false) :
    ((req.replayFile = none ∨ req.replayFile = some []) →
      slpHandler req parse unlinkOk =
        (⟨400, .message "No replay file uploaded"⟩, [])) ∧
    (∀ file rest, req.replayFile = some (file :: rest) →
      (∀ n, file.originalFilename = some n → strEndsWith n ".slp" = false) →
      slpHandler req parse unlinkOk =
        (⟨400, .message "Only .slp files are accepted"⟩, [])) := by
  constructor
  · rintro (h | h) <;> simp [slpHandler, hm, hf, h]
  · intro file rest hr hn
    have hmatch : (match file.originalFilename with
        | some n => strEndsWith n ".slp"
        | none => false) = false := by
      cases hof : file.originalFilename with
      | none => rfl
      | some n => exact hn n hof
    simp [slpHandler, hm, hf, hr, hmatch]

/-- A POST request with no replayFile field, used as a concrete example. -/
def exNoFileReq : SlpReq := { method := "POST", formErr := false, replayFile := none }

/-- A concrete uploaded .txt file. -/
def exTxtFile : UploadedFile := { originalFilename := some "data.txt", filepath := "/up/f1" }

/-- A POST request carrying the .txt file, used as a concrete example. -/
def exTxtReq : SlpReq := { method := "POST", formErr := false, replayFile := some [exTxtFile] }

/-- C2 witness: a missing field and a concrete .txt upload are both
rejected with 400 and no parser call. -/
theorem slp_upload_rejects_witness :
    slpHandler exNoFileReq (fun _ => some 0) (fun _ => true) =
        (⟨400, .message "No replay file uploaded"⟩, []) ∧
      slpHandler exTxtReq (fun _ => some 0) (fun _ => true) =
        (⟨400, .message "Only .slp files are accepted"⟩, []) :=
  ⟨(slp_upload_rejects exNoFileReq (fun _ => some 0) (fun _ => true) rfl rfl).1
      (Or.inl rfl),
    (slp_upload_rejects exTxtReq (fun _ => some 0) (fun _ => true) rfl rfl).2
      exTxtFile [] rfl (by intro n h; cases h; decide)⟩

/-- C1: on a POST carrying a .zip file whose archive unzips successfully,
the zip-batch revision responds 200 with a results array holding exactly
one entry per .slp archive entry, in archive order: a parsed entry when
the parser succeeds and a "Failed to parse" entry when it throws; non-.slp
entries contribute nothing and a failing entry does not stop the rest. -/
theorem zip_batch_response (req : ZipReq) (parse : ByteData → Option ParsedData)
    (unlinkOk : String → Bool) (file : UploadedFile) (rest : List UploadedFile)
    (name : String) (entries : List (String × ByteData))
    (hm : req.method = "POST") (hf : req.formErr = false)
    (hr : req.replayFile = some (file :: rest))
    (hname : file.originalFilename = some name)
    (hzip : strEndsWith name ".zip" = true)
    (hu : req.unzipped = some entries) :
    (zipHandler req parse unlinkOk).1 =
      ⟨200, .results (entries.filterMap (fun e =>
        if strEndsWith e.1 ".slp" then
          some (match parse e.2 with
            | some d => ResultEntry.parsed e.1 d
            | none => ResultEntry.failed e.1 "Failed to parse")
        else none))⟩ := by
  simp [zipHandler, hm, hf, hr, hname, hzip, hu, zipBatch_results_eq]

/-- A concrete uploaded .zip file. -/
def exZipFile : UploadedFile := { originalFilename := some "batch.zip", filepath := "/up/z1" }

/-- Concrete archive entries: two .slp entries and one .txt entry. -/
def exEntries : List (String × ByteData) := [("a.slp", [1]), ("notes.txt", [3]), ("b.slp", [2])]

/-- A concrete POST request carrying the .zip file with the entries. -/
def exZipReq : ZipReq :=
  { method := "POST", formErr := false, replayFile := some [exZipFile],
    unzipped := some exEntries, env := "production", cwd := "/srv" }

/-- A concrete parse oracle: succeeds exactly on the bytes [1]. -/
def exParse : ByteData → Option ParsedData := fun d => if d = [1] then some 7 else none

/-- C1 witness: on the concrete zip, the .slp entry with bytes [1] parses,
the .txt entry contributes nothing, and the failing .slp entry is reported
by filename without stopping the batch. -/
theorem zip_batch_response_witness :
    (zipHandler exZipReq exParse (fun _ => true)).1 =
      ⟨200, .results [ResultEntry.parsed "a.slp" 7,
        ResultEntry.failed "b.slp" "Failed to parse"]⟩ := by
  rw [zip_batch_response exZipReq exParse (fun _ => true) exZipFile [] "batch.zip"
    exEntries rfl rfl rfl rfl (by decide) rfl]
  decide

/-- Every temp-file write performed by the batch loop is followed by an
unlink attempt on the same path. -/
theorem zipBatch_write_unlink (parse : ByteData → Option ParsedData)
    (unlinkOk : String → Bool) (env cwd : String) :
    ∀ (entries : List (String × ByteData)) (p : String),
      Ev.write p ∈ (zipBatch parse unlinkOk env cwd entries).2 →
      Ev.unlink p (unlinkOk p) ∈ (zipBatch parse unlinkOk env cwd entries).2 := by
  intro entries
  induction entries with
  | nil => intro p h; simp [zipBatch] at h
  | cons e rest ih =>
    intro p h
    obtain ⟨filename, data⟩ := e
    by_cases hs : strEndsWith filename ".slp" = true
    · simp only [zipBatch, hs, if_true, List.mem_cons] at h ⊢
      rcases h with h | h | h | h
      · cases h
        exact Or.inr (Or.inr (Or.inl rfl))
      · cases h
      · cases h
      · exact Or.inr (Or.inr (Or.inr (ih p h)))
    · simp only [zipBatch, hs, if_false, Bool.false_eq_true] at h ⊢
      exact ih p h

/-- The batch loop attempts to delete the temp file of every .slp entry,
whether or not its parse succeeded. -/
theorem zipBatch_entry_unlink (parse : ByteData → Option ParsedData)
    (unlinkOk : String → Bool) (env cwd : String) :
    ∀ (entries : List (String × ByteData)) (e : String × ByteData),
      e ∈ entries → strEndsWith e.1 ".slp" = true →
      Ev.write (tmpPath env cwd e.1) ∈ (zipBatch parse unlinkOk env cwd entries).2 ∧
      Ev.unlink (tmpPath env cwd e.1) (unlinkOk (tmpPath env cwd e.1)) ∈
        (zipBatch parse unlinkOk env cwd entries).2 := by
  intro entries
  induction entries with
  | nil => intro e he; cases he
  | cons hd rest ih =>
    intro e he hslp
    obtain ⟨filename, data⟩ := hd
    rcases List.mem_cons.mp he with he | he
    · subst he
      simp [zipBatch, hslp]
    · by_cases hs : strEndsWith filename ".slp" = true
      · obtain ⟨h1, h2⟩ := ih e he hslp
        simp only [zipBatch, hs, if_true, List.mem_cons]
        exact ⟨by tauto, by tauto⟩
      · simp only [zipBatch, hs, if_false, Bool.false_eq_true]
        exact ih e he hslp

/-- The results of the batch loop do not depend on unlink outcomes. -/
theorem zipBatch_results_indep (parse : ByteData → Option ParsedData)
    (ok1 ok2 : String → Bool) (env cwd : String) :
    ∀ entries : List (String × ByteData),
      (zipBatch parse ok1 env cwd entries).1 = (zipBatch parse ok2 env cwd entries).1 := by
  intro entries
  rw [zipBatch_results_eq, zipBatch_results_eq]

/-- The response of the zip-batch handler does not depend on unlink
outcomes. -/
theorem zipHandler_response_indep (req : ZipReq)
    (parse : ByteData → Option ParsedData) (ok1 ok2 : String → Bool) :
    (zipHandler req parse ok1).1 = (zipHandler req parse ok2).1 := by
  unfold zipHandler
  split
  · rfl
  · split
    · rfl
    · split
      · rfl
      · rfl
      · split
        · rfl
        · split
          · rfl
          · simp only
            rw [zipBatch_results_indep parse ok1 ok2]

/-- C10 (amended): once the request reaches the batch loop (POST, parsed
form, .zip filename, successful read and unzip), every temp file written
for a .slp entry has its deletion attempted whether its parse succeeded or
failed, deletion of the temp file of the zip itself is attempted, and unlink
outcomes never change the response. -/
theorem zip_batch_cleanup (req : ZipReq) (parse : ByteData → Option ParsedData)
    (unlinkOk : String → Bool) (file : UploadedFile) (rest : List UploadedFile)
    (name : String) (entries : List (String × ByteData))
    (hm : req.method = "POST") (hf : req.formErr = false)
    (hr : req.replayFile = some (file :: rest))
    (hname : file.originalFilename = some name)
    (hzip : strEndsWith name ".zip" = true)
    (hu : req.unzipped = some entries) :
    (∀ p, Ev.write p ∈ (zipHandler req parse unlinkOk).2 →
      Ev.unlink p (unlinkOk p) ∈ (zipHandler req parse unlinkOk).2) ∧
    (∀ e ∈ entries, strEndsWith e.1 ".slp" = true →
      Ev.write (tmpPath req.env req.cwd e.1) ∈ (zipHandler req parse unlinkOk).2 ∧
      Ev.unlink (tmpPath req.env req.cwd e.1) (unlinkOk (tmpPath req.env req.cwd e.1)) ∈
        (zipHandler req parse unlinkOk).2) ∧
    Ev.unlink file.filepath (unlinkOk file.filepath) ∈ (zipHandler req parse unlinkOk).2 ∧
    (∀ ok2, (zipHandler req parse ok2).1 = (zipHandler req parse unlinkOk).1) := by
  have htrace : (zipHandler req parse unlinkOk).2 =
      (zipBatch parse unlinkOk req.env req.cwd entries).2 ++
        [Ev.unlink file.filepath (unlinkOk file.filepath)] := by
    simp [zipHandler, hm, hf, hr, hname, hzip, hu]
  refine ⟨?_, ?_, ?_, fun ok2 => zipHandler_response_indep req parse ok2 unlinkOk⟩
  · intro p hp
    rw [htrace] at hp ⊢
    rcases List.mem_append.mp hp with hp | hp
    · exact List.mem_append.mpr
        (Or.inl (zipBatch_write_unlink parse unlinkOk req.env req.cwd entries p hp))
    · simp at hp
  · intro e he hslp
    rw [htrace]
    obtain ⟨h1, h2⟩ := zipBatch_entry_unlink parse unlinkOk req.env req.cwd entries e he hslp
    exact ⟨List.mem_append.mpr (Or.inl h1), List.mem_append.mpr (Or.inl h2)⟩
  · rw [htrace]
    exact List.mem_append.mpr (Or.inr (List.mem_singleton.mpr rfl))

/-- C10 witness: on the concrete zip request, the temp files of both .slp
entries are written and their deletion attempted, deletion of the zip temp file
is attempted, and flipping every unlink outcome leaves the
response unchanged. -/
theorem zip_batch_cleanup_witness :
    (Ev.write (tmpPath "production" "/srv" "a.slp") ∈
        (zipHandler exZipReq exParse (fun _ => true)).2 ∧
      Ev.unlink (tmpPath "production" "/srv" "a.slp") true ∈
        (zipHandler exZipReq exParse (fun _ => true)).2) ∧
      Ev.unlink "/up/z1" true ∈ (zipHandler exZipReq exParse (fun _ => true)).2 ∧
      (zipHandler exZipReq exParse (fun _ => false)).1 =
        (zipHandler exZipReq exParse (fun _ => true)).1 := by
  have h := zip_batch_cleanup exZipReq exParse (fun _ => true) exZipFile [] "batch.zip"
    exEntries rfl rfl rfl rfl (by decide) rfl
  exact ⟨h.2.1 ("a.slp", [1]) (by decide) (by decide), h.2.2.1, h.2.2.2 (fun _ => false)⟩

/-- A concrete POST request whose uploaded file is a .zip but whose
read-and-unzip step throws. -/
def exBadZipReq : ZipReq :=
  { method := "POST", formErr := false, replayFile := some [exZipFile],
    unzipped := none, env := "production", cwd := "/srv" }

/-- C10 counterexample: when reading or unzipping the uploaded zip throws,
the handler sends a 500 response with an empty event trace, so deletion of
the temp file of the zip itself is never attempted even though that file was
created during the request. -/
theorem zip_cleanup_counterexample :
    (zipHandler exBadZipReq exParse (fun _ => true)).1.status = 500 ∧
      (zipHandler exBadZipReq exParse (fun _ => true)).2 = [] := by
  decide

/-! ### C3: the file picker cap -/

/-- One picker interaction keeps the selection within MAX_FILES. -/
theorem pickStep_length_le (prev : List JsFile) (e : PickEvent)
    (h : prev.length ≤ MAX_FILES) : (pickStep prev e).length ≤ MAX_FILES := by
  cases e with
  | drop fs =>
    simp only [pickStep, handleDrop]
    split
    · split
      · simp
      · omega
    · exact h
  | select fs =>
    simp only [pickStep, handleFileChange]
    split
    · simp
    · exact h
  | clearSelection => simp [pickStep]

/-- The invariant holds after any interaction sequence from any state
within the cap. -/
theorem pickLoop_length_le (events : List PickEvent) :
    ∀ prev : List JsFile, prev.length ≤ MAX_FILES →
      (events.foldl pickStep prev).length ≤ MAX_FILES := by
  induction events with
  | nil => intro prev h; exact h
  | cons e rest ih =>
    intro prev h
    exact ih (pickStep prev e) (pickStep_length_le prev e h)

/-- C3: the selected-files list never exceeds 100 files under any
sequence of drop and file-select additions; a submission therefore never
carries more than 100 files; and an addition that would push the combined
list past 100 keeps exactly its first 100 files, in both handlers. -/
theorem picker_enforces_cap :
    (∀ events : List PickEvent, (runPicker events).length ≤ MAX_FILES) ∧
      (∀ (events : List PickEvent) (l : List JsFile),
        handleSubmit (runPicker events) = some l → l.length ≤ MAX_FILES) ∧
      (∀ prev incoming : List JsFile, filterValid incoming ≠ [] →
        (prev ++ filterValid incoming).length > MAX_FILES →
        handleDrop prev incoming = (prev ++ filterValid incoming).take MAX_FILES ∧
        handleFileChange prev incoming = (prev ++ filterValid incoming).take MAX_FILES) := by
  refine ⟨fun events => pickLoop_length_le events [] (by simp), ?_, ?_⟩
  · intro events l hsub
    have : l = runPicker events := by
      by_cases h : (runPicker events).length > 0 <;> simp [handleSubmit, h] at hsub
      exact hsub.symm
    subst this
    exact pickLoop_length_le events [] (by simp)
  · intro prev incoming hval hover
    have hlen : (filterValid incoming).length > 0 := by
      cases hfe : filterValid incoming with
      | nil => exact absurd hfe hval
      | cons a l => simp [hfe]
    constructor
    · simp only [handleDrop, hlen, if_true, hover]
    · simp only [handleFileChange, hlen, if_true]

/-- C3 witness: a selection of 100 files plus one more valid file is
truncated to the first 100 by both handlers, and a concrete interaction
sequence submits at most 100 files. -/
theorem picker_enforces_cap_witness :
    (runPicker [PickEvent.drop [⟨"b.slp"⟩]]).length ≤ MAX_FILES ∧
      handleDrop (List.replicate 100 ⟨"a.slp"⟩) [⟨"b.slp"⟩] =
        (List.replicate 100 (⟨"a.slp"⟩ : JsFile) ++
          filterValid [⟨"b.slp"⟩]).take MAX_FILES ∧
      handleFileChange (List.replicate 100 ⟨"a.slp"⟩) [⟨"b.slp"⟩] =
        (List.replicate 100 (⟨"a.slp"⟩ : JsFile) ++
          filterValid [⟨"b.slp"⟩]).take MAX_FILES := by
  obtain ⟨h1, h2⟩ := picker_enforces_cap.2.2 (List.replicate 100 ⟨"a.slp"⟩) [⟨"b.slp"⟩]
    (by decide) (by decide)
  exact ⟨picker_enforces_cap.1 [PickEvent.drop [⟨"b.slp"⟩]], h1, h2⟩

/-! ### C5: the statistics helpers -/

/-- The ascending numeric sort equals any sorted permutation of its
input. -/
theorem jsSortNumAsc_eq_of_sorted (l s : List ℚ) (hperm : s.Perm l)
    (hsort : s.Sorted (· ≤ ·)) : jsSortNumAsc l = s := by
  haveI : IsAntisymm ℚ (· ≤ ·) := ⟨fun _ _ h1 h2 => le_antisymm h1 h2⟩
  have hsorted : (jsSortNumAsc l).Sorted (· ≤ ·) := by
    have h := @List.sorted_mergeSort ℚ (fun a b => decide (a ≤ b))
      (fun a b c h1 h2 => by
        simp only [decide_eq_true_eq] at h1 h2 ⊢
        exact le_trans h1 h2)
      (fun a b => by
        simp only [Bool.or_eq_true, decide_eq_true_eq]
        exact le_total a b) l
    exact h.imp (fun hab => of_decide_eq_true hab)
  exact List.eq_of_perm_of_sorted ((List.mergeSort_perm l _).trans hperm.symm)
    hsorted hsort

/-- C5: for a non-empty list, calculateMedian returns the middle element
of the ascending sort when the length is odd and the mean of the two
middle elements when it is even; calculateAverage returns the sum divided
by the length; and the input list is left unchanged (the source sorts a
copy). The sorted list is presented through any sorted permutation s of
the input. -/
theorem calc_helpers (l s : List ℚ) (_hne : l ≠ []) (hperm : s.Perm l)
    (hsort : s.Sorted (· ≤ ·)) :
    calculateMedian l =
        (if l.length % 2 = 0 then
          (s.getD (l.length / 2 - 1) 0 + s.getD (l.length / 2) 0) / 2
        else s.getD (l.length / 2) 0) ∧
      calculateAverage l = l.sum / (l.length : ℚ) ∧
      calculateMedianState l = (calculateMedian l, l) := by
  have hs : jsSortNumAsc l = s := jsSortNumAsc_eq_of_sorted l s hperm hsort
  have hlen : s.length = l.length := hperm.length_eq
  refine ⟨?_, ?_, rfl⟩
  · simp only [calculateMedian, hs, hlen]
  · simp only [calculateAverage, List.sum_eq_foldl]

/-- C5 witness: the helpers on the concrete list [3, 1, 2] with its sorted
permutation [1, 2, 3]. -/
theorem calc_helpers_witness :
    calculateMedian [3, 1, 2] =
        (if ([3, 1, 2] : List ℚ).length % 2 = 0 then
          (([1, 2, 3] : List ℚ).getD (([3, 1, 2] : List ℚ).length / 2 - 1) 0 +
            ([1, 2, 3] : List ℚ).getD (([3, 1, 2] : List ℚ).length / 2) 0) / 2
        else ([1, 2, 3] : List ℚ).getD (([3, 1, 2] : List ℚ).length / 2) 0) ∧
      calculateAverage [3, 1, 2] =
        ([3, 1, 2] : List ℚ).sum / ((([3, 1, 2] : List ℚ).length : ℕ) : ℚ) ∧
      calculateMedianState [3, 1, 2] = (calculateMedian [3, 1, 2], [3, 1, 2]) :=
  calc_helpers [3, 1, 2] [1, 2, 3] (by decide) (by decide) (by decide)

/-! ### C8: sorting of the tables -/

/-- Transitivity of the numeric in-order test, in both directions. -/
theorem qLe_trans (dir : SortDir) (a b c : ℚ) (h1 : qLe dir a b = true)
    (h2 : qLe dir b c = true) : qLe dir a c = true := by
  cases dir <;> simp only [qLe, decide_eq_true_eq] at h1 h2 ⊢
  · exact le_trans h1 h2
  · exact le_trans h2 h1

/-- Totality of the numeric in-order test. -/
theorem qLe_total (dir : SortDir) (a b : ℚ) : (qLe dir a b || qLe dir b a) = true := by
  cases dir <;> simp only [qLe, Bool.or_eq_true, decide_eq_true_eq] <;> exact le_total _ _

/-- Transitivity of the integer-column in-order test. -/
theorem natColLe_trans (dir : SortDir) (a b c : Nat) (h1 : natColLe dir a b = true)
    (h2 : natColLe dir b c = true) : natColLe dir a c = true := by
  cases dir <;> simp only [natColLe, decide_eq_true_eq] at h1 h2 ⊢ <;> omega

/-- Totality of the integer-column in-order test. -/
theorem natColLe_total (dir : SortDir) (a b : Nat) :
    (natColLe dir a b || natColLe dir b a) = true := by
  cases dir <;> simp only [natColLe, Bool.or_eq_true, decide_eq_true_eq] <;> omega

/-- Transitivity of the string-column in-order test. -/
theorem strColLe_trans (dir : SortDir) (a b c : String) (h1 : strColLe dir a b = true)
    (h2 : strColLe dir b c = true) : strColLe dir a c = true := by
  cases dir <;> simp only [strColLe, decide_eq_true_eq] at h1 h2 ⊢
  · exact le_trans h1 h2
  · exact le_trans h2 h1

/-- Totality of the string-column in-order test. -/
theorem strColLe_total (dir : SortDir) (a b : String) :
    (strColLe dir a b || strColLe dir b a) = true := by
  cases dir <;> simp only [strColLe, Bool.or_eq_true, decide_eq_true_eq] <;>
    exact le_total _ _

/-- Transitivity of the Character Breakdown comparator. -/
theorem cbColLe_trans (col : CBCol) (dir : SortDir) (a b c : CBRow)
    (h1 : cbColLe col dir a b = true) (h2 : cbColLe col dir b c = true) :
    cbColLe col dir a c = true := by
  cases col <;> simp only [cbColLe] at h1 h2 ⊢ <;>
    first
      | exact qLe_trans dir _ _ _ h1 h2
      | exact natColLe_trans dir _ _ _ h1 h2
      | exact strColLe_trans dir _ _ _ h1 h2

/-- Totality of the Character Breakdown comparator. -/
theorem cbColLe_total (col : CBCol) (dir : SortDir) (a b : CBRow) :
    (cbColLe col dir a b || cbColLe col dir b a) = true := by
  cases col <;> simp only [cbColLe] <;>
    first
      | exact qLe_total dir _ _
      | exact natColLe_total dir _ _
      | exact strColLe_total dir _ _

/-- Transitivity of the Matchup Analysis comparator. -/
theorem muColLe_trans (col : MUCol) (dir : SortDir) (a b c : MURow)
    (h1 : muColLe col dir a b = true) (h2 : muColLe col dir b c = true) :
    muColLe col dir a c = true := by
  cases col <;> simp only [muColLe] at h1 h2 ⊢ <;>
    first
      | exact qLe_trans dir _ _ _ h1 h2
      | exact natColLe_trans dir _ _ _ h1 h2
      | exact strColLe_trans dir _ _ _ h1 h2

/-- Totality of the Matchup Analysis comparator. -/
theorem muColLe_total (col : MUCol) (dir : SortDir) (a b : MURow) :
    (muColLe col dir a b || muColLe col dir b a) = true := by
  cases col <;> simp only [muColLe] <;>
    first
      | exact qLe_total dir _ _
      | exact natColLe_total dir _ _
      | exact strColLe_total dir _ _

/-- C8: the displayed rows of both tables are a permutation of the
computed rows in which every adjacent pair is in order for the selected
column and direction (numeric columns numerically, the name columns in
string order, ascending for asc and descending for desc), and the default
sort state is totalGames descending in both components. -/
theorem tables_sorted (rows : List CBRow) (mrows : List MURow) (col : CBCol)
    (mcol : MUCol) (dir : SortDir) :
    List.Chain' (fun a b => cbColLe col dir a b = true) (cbSort col dir rows) ∧
      (cbSort col dir rows).Perm rows ∧
      List.Chain' (fun a b => muColLe mcol dir a b = true) (muSort mcol dir mrows) ∧
      (muSort mcol dir mrows).Perm mrows ∧
      cbDefaultSortBy = CBCol.totalGames ∧ cbDefaultSortDir = SortDir.desc ∧
      muDefaultSortBy = MUCol.totalGames ∧ muDefaultSortDir = SortDir.desc :=
  ⟨(List.sorted_mergeSort (cbColLe_trans col dir) (cbColLe_total col dir) rows).chain',
    List.mergeSort_perm rows _,
    (List.sorted_mergeSort (muColLe_trans mcol dir) (muColLe_total mcol dir) mrows).chain',
    List.mergeSort_perm mrows _, rfl, rfl, rfl, rfl⟩

/-! ### C9: winner determination from the stocks list -/

/-- The index stocks.length - 1 read by the components is the last
element. -/
theorem lastStock_eq_getLast (stocks : List Stock) :
    lastStock stocks = stocks.getLast? := by
  rw [lastStock, List.get?_eq_getElem?, List.getLast?_eq_getElem?]

/-- On a non-empty stocks list the winner test is defined. -/
theorem isWinner_isSome (stocks : List Stock) (pi : Int) (h : stocks ≠ []) :
    ∃ b, isWinner stocks pi = some b := by
  obtain ⟨s, hs⟩ := Option.isSome_iff_exists.mp
    ((List.getLast?_isSome).mpr h)
  exact ⟨s.playerIndex != pi, by simp [isWinner, lastStock_eq_getLast, hs]⟩

/-- C9: reading stocks[stocks.length - 1] is in bounds exactly on
non-empty stocks lists: on such lists it returns the last stock, the
player wins exactly when their playerIndex differs from the playerIndex
of the last stock, and the per-player processing of both aggregation components
never hits the undefined read; on an empty stocks list the read is out of
bounds. -/
theorem winner_from_last_stock :
    (∀ (stocks : List Stock) (pi : Int), stocks ≠ [] →
      ∃ s, lastStock stocks = some s ∧ stocks.getLast? = some s ∧
        isWinner stocks pi = some (s.playerIndex != pi) ∧
        winnerIndex stocks = some s.playerIndex ∧
        ((s.playerIndex != pi) = true ↔ s.playerIndex ≠ pi)) ∧
      (∀ (replay : Replay) (m : CBMap) (i : Int), replay.stocks ≠ [] →
        (cbProcessPlayer replay m i).isSome = true) ∧
      (∀ (sp : Option String) (selChar : Option Nat) (replay : Replay) (m : MUMap),
        replay.stocks ≠ [] → (muProcessReplay sp selChar replay m).isSome = true) ∧
      lastStock [] = none := by
  refine ⟨?_, ?_, ?_, rfl⟩
  · intro stocks pi h
    obtain ⟨s, hs⟩ := Option.isSome_iff_exists.mp ((List.getLast?_isSome).mpr h)
    refine ⟨s, ?_, hs, ?_, ?_, bne_iff_ne⟩
    · rw [lastStock_eq_getLast, hs]
    · simp [isWinner, lastStock_eq_getLast, hs]
    · simp [winnerIndex, lastStock_eq_getLast, hs]
  · intro replay m i h
    obtain ⟨b, hb⟩ := isWinner_isSome replay.stocks i h
    simp only [cbProcessPlayer, hb]
    split
    · rfl
    · split
      · rfl
      · split
        · rfl
        · rfl
  · intro sp selChar replay m h
    simp only [muProcessReplay]
    split
    · rfl
    · split
      · rfl
      · rename_i playerIndex opponentIndex heq
        split
        · split
          · rfl
          · split
            · obtain ⟨b, hb⟩ := isWinner_isSome replay.stocks playerIndex h
              rw [hb]
              rfl
            · rfl
        · rfl

/-- A concrete stocks list and replays used by the witnesses. -/
def exStocks : List Stock := [⟨0⟩, ⟨1⟩]

/-- A concrete one-player replay: player 0 plays character 5 and wins
(the last stock lost belongs to player 1). -/
def exReplay : Replay :=
  { metaPlayers := [⟨"A"⟩], settingsPlayers := [⟨0, 5⟩],
    overall := [⟨0, 1, 2, 3, 10⟩], stocks := [⟨1⟩] }

/-- C9 witness: on the concrete stocks list the last-stock read is
defined, the winner test and winnerIndex agree with the last stock, and
both per-player processings are defined on the concrete replay. -/
theorem winner_from_last_stock_witness :
    lastStock exStocks = some ⟨1⟩ ∧
      isWinner exStocks 0 = some true ∧
      winnerIndex exStocks = some 1 ∧
      (cbProcessPlayer exReplay [] 0).isSome = true ∧
      (muProcessReplay none none exReplay []).isSome = true := by
  obtain ⟨s, h1, _, h3, h4, _⟩ := winner_from_last_stock.1 exStocks 0 (by decide)
  have hs : s = ⟨1⟩ := by
    have : lastStock exStocks = some ⟨1⟩ := by decide
    rw [this] at h1
    exact (Option.some.inj h1).symm
  subst hs
  exact ⟨h1, h3, h4,
    winner_from_last_stock.2.1 exReplay [] 0 (by decide),
    winner_from_last_stock.2.2.1 none none exReplay [] (by decide)⟩

/-! ### C4: bookkeeping invariants of the aggregated rows -/

/-- The win-loss bookkeeping invariant of a Character Breakdown map. -/
abbrev cbInv (m : CBMap) : Prop :=
  ∀ e ∈ m, e.2.wins + e.2.losses = e.2.totalGames

/-- The win-loss bookkeeping invariant of a Matchup Analysis map. -/
abbrev muInv (m : MUMap) : Prop :=
  ∀ e ∈ m, e.2.wins + e.2.losses = e.2.totalGames

/-- An in-place map update preserves a pointwise value predicate. -/
theorem updateAssoc_pred {κ α : Type} [DecidableEq κ] (P : α → Prop)
    (m : List (κ × α)) (k : κ) (f : α → α)
    (hm : ∀ e ∈ m, P e.2) (hf : ∀ a, P a → P (f a)) :
    ∀ e ∈ updateAssoc m k f, P e.2 := by
  intro e he
  simp only [updateAssoc, List.mem_map] at he
  obtain ⟨e0, he0, heq⟩ := he
  by_cases hk : e0.1 = k
  · rw [if_pos hk] at heq
    rw [← heq]
    exact hf _ (hm e0 he0)
  · rw [if_neg hk] at heq
    rw [← heq]
    exact hm e0 he0

/-- The per-game bump adds one game and exactly one of a win or a loss. -/
theorem bumpCBAcc_inv (isW : Bool) (ps : OverallStats) (a : CBAcc)
    (h : a.wins + a.losses = a.totalGames) :
    (bumpCBAcc isW ps a).wins + (bumpCBAcc isW ps a).losses =
      (bumpCBAcc isW ps a).totalGames := by
  cases isW <;> simp [bumpCBAcc] <;> linarith

/-- Initialising a missing entry preserves the invariant. -/
theorem cbInv_append_init (m : CBMap) (cid : Nat) (hm : cbInv m) :
    cbInv (if containsKey m cid then m else m ++ [(cid, initCBAcc cid)]) := by
  split
  · exact hm
  · intro e he
    rcases List.mem_append.mp he with he | he
    · exact hm e he
    · rw [List.mem_singleton.mp he]
      simp [initCBAcc]

/-- Processing one player preserves the invariant. -/
theorem cbProcessPlayer_inv (replay : Replay) (m m2 : CBMap) (i : Int)
    (hm : cbInv m) (h : cbProcessPlayer replay m i = some m2) : cbInv m2 := by
  simp only [cbProcessPlayer] at h
  split at h
  · rw [← Option.some.inj h]
    exact hm
  · split at h
    · rw [← Option.some.inj h]
      exact hm
    · rename_i cid heq
      split at h
      · rw [← Option.some.inj h]
        exact cbInv_append_init m cid hm
      · split at h
        · exact Option.noConfusion h
        · rename_i isW hw
          rw [← Option.some.inj h]
          exact updateAssoc_pred _ _ cid _ (cbInv_append_init m cid hm)
            (fun a ha => bumpCBAcc_inv isW _ a ha)

/-- The per-replay player loop preserves the invariant. -/
theorem cbListLoop_inv (replay : Replay) :
    ∀ (idxs : List Int) (m m2 : CBMap), cbInv m →
      cbListLoop replay idxs m = some m2 → cbInv m2 := by
  intro idxs
  induction idxs with
  | nil =>
    intro m m2 hm h
    rw [← Option.some.inj h]
    exact hm
  | cons i rest ih =>
    intro m m2 hm h
    simp only [cbListLoop] at h
    cases hp : cbProcessPlayer replay m i with
    | none => rw [hp] at h; exact Option.noConfusion h
    | some mm =>
      rw [hp] at h
      exact ih mm m2 (cbProcessPlayer_inv replay m mm i hm hp) h

/-- The whole Character Breakdown reduction preserves the invariant. -/
theorem cbReplaysLoop_inv (sp : Option String) :
    ∀ (replays : List Replay) (m m2 : CBMap), cbInv m →
      cbReplaysLoop sp replays m = some m2 → cbInv m2 := by
  intro replays
  induction replays with
  | nil =>
    intro m m2 hm h
    rw [← Option.some.inj h]
    exact hm
  | cons r rest ih =>
    intro m m2 hm h
    simp only [cbReplaysLoop] at h
    cases hp : cbProcessReplay sp r m with
    | none => rw [hp] at h; exact Option.noConfusion h
    | some mm =>
      rw [hp] at h
      have hmm : cbInv mm := by
        have := hp
        simp only [cbProcessReplay] at this
        cases hq : cbPlayerIndices sp r with
        | none =>
          rw [hq] at this
          rw [← Option.some.inj this]
          exact hm
        | some idxs =>
          rw [hq] at this
          exact cbListLoop_inv r idxs m mm hm this
      exact ih mm m2 hmm h

/-- The matchup bump adds one game and exactly one of a win or a loss. -/
theorem bumpMUAcc_inv (isW : Bool) (ps os : OverallStats) (a : MUAcc)
    (h : a.wins + a.losses = a.totalGames) :
    (bumpMUAcc isW ps os a).wins + (bumpMUAcc isW ps os a).losses =
      (bumpMUAcc isW ps os a).totalGames := by
  cases isW <;> simp [bumpMUAcc] <;> linarith

/-- Initialising a missing matchup entry preserves the invariant. -/
theorem muInv_append_init (m : MUMap) (k : String) (cid ocid : Nat) (hm : muInv m) :
    muInv (if containsKey m k then m else m ++ [(k, initMUAcc cid ocid)]) := by
  split
  · exact hm
  · intro e he
    rcases List.mem_append.mp he with he | he
    · exact hm e he
    · rw [List.mem_singleton.mp he]
      simp [initMUAcc]

/-- Processing one replay preserves the matchup invariant. -/
theorem muProcessReplay_inv (sp : Option String) (selChar : Option Nat)
    (replay : Replay) (m m2 : MUMap)
    (hm : muInv m) (h : muProcessReplay sp selChar replay m = some m2) : muInv m2 := by
  simp only [muProcessReplay] at h
  split at h
  · rw [← Option.some.inj h]
    exact hm
  · split at h
    · rw [← Option.some.inj h]
      exact hm
    · split at h
      · rename_i pcid ocid hp hq
        split at h
        · rw [← Option.some.inj h]
          exact hm
        · split at h
          · split at h
            · exact Option.noConfusion h
            · rename_i isW hw
              rw [← Option.some.inj h]
              exact updateAssoc_pred _ _ (muKey pcid ocid) _
                (muInv_append_init m (muKey pcid ocid) pcid ocid hm)
                (fun a ha => bumpMUAcc_inv isW _ _ a ha)
          · rw [← Option.some.inj h]
            exact muInv_append_init m (muKey pcid ocid) pcid ocid hm
      · rw [← Option.some.inj h]
        exact hm

/-- The whole Matchup Analysis reduction preserves the invariant. -/
theorem muReplaysLoop_inv (sp : Option String) (selChar : Option Nat) :
    ∀ (replays : List Replay) (m m2 : MUMap), muInv m →
      muReplaysLoop sp selChar replays m = some m2 → muInv m2 := by
  intro replays
  induction replays with
  | nil =>
    intro m m2 hm h
    rw [← Option.some.inj h]
    exact hm
  | cons r rest ih =>
    intro m m2 hm h
    simp only [muReplaysLoop] at h
    cases hp : muProcessReplay sp selChar r m with
    | none => rw [hp] at h; exact Option.noConfusion h
    | some mm =>
      rw [hp] at h
      exact ih mm m2 (muProcessReplay_inv sp selChar r m mm hm hp) h

/-- C4: in every aggregated row of both components, wins + losses equals
totalGames and winRate is 100 * wins / totalGames guarded by
totalGames > 0 (0 otherwise); and every per-row average divides only by
its guard-checked denominator, returning 0 otherwise. -/
theorem agg_rows_consistent :
    (∀ (sp : Option String) (replays : List Replay) (m : CBMap)
        (charName : Nat → String),
      cbReplaysLoop sp replays [] = some m →
      ∀ row ∈ cbRows charName m,
        row.wins + row.losses = row.totalGames ∧
        row.winRate =
          (if row.totalGames > 0 then 100 * row.wins / row.totalGames else 0)) ∧
      (∀ (sp : Option String) (selChar : Option Nat) (replays : List Replay)
          (m : MUMap) (charName : Nat → String),
        muReplaysLoop sp selChar replays [] = some m →
        ∀ row ∈ muRows charName m,
          row.wins + row.losses = row.totalGames ∧
          row.winRate =
            (if row.totalGames > 0 then 100 * row.wins / row.totalGames else 0)) ∧
      (∀ (charName : Nat → String) (a : CBAcc),
        (mkCBRow charName a).averageDamagePerOpening =
            (if a.openingsCount > 0 then a.totalDamagePerOpening / a.openingsCount
            else 0) ∧
          (mkCBRow charName a).averageOpeningsPerKill =
            (if a.killsCount > 0 then a.openingsPerKillTotal / a.killsCount else 0) ∧
          (mkCBRow charName a).averageInputsPerMinute =
            (if a.totalGames > 0 then a.inputsPerMinuteTotal / a.totalGames else 0)) ∧
      (∀ (charName : Nat → String) (a : MUAcc),
        (mkMURow charName a).averageDamageDealt =
            (if a.totalGames > 0 then a.totalDamageDealt / a.totalGames else 0) ∧
          (mkMURow charName a).averageDamageTaken =
            (if a.totalGames > 0 then a.totalDamageTaken / a.totalGames else 0) ∧
          (mkMURow charName a).damageRatio =
            (if a.totalDamageTaken > 0 then a.totalDamageDealt / a.totalDamageTaken
            else 0)) := by
  refine ⟨?_, ?_, fun charName a => ⟨rfl, rfl, rfl⟩, fun charName a => ⟨rfl, rfl, rfl⟩⟩
  · intro sp replays m charName hloop row hrow
    have hinv : cbInv m :=
      cbReplaysLoop_inv sp replays [] m (fun e he => absurd he (List.not_mem_nil e)) hloop
    simp only [cbRows, List.mem_map] at hrow
    obtain ⟨a, ha, hrow⟩ := hrow
    simp only [objValuesNat, List.mem_map] at ha
    obtain ⟨e, he, hea⟩ := ha
    have he2 : e ∈ m := (List.mergeSort_perm m _).mem_iff.mp he
    have ha2 : a.wins + a.losses = a.totalGames := by
      rw [← hea]
      exact hinv e he2
    subst hrow
    refine ⟨ha2, ?_⟩
    show (if a.totalGames > 0 then a.wins / a.totalGames * 100 else 0) =
      (if a.totalGames > 0 then 100 * a.wins / a.totalGames else 0)
    split
    · ring
    · rfl
  · intro sp selChar replays m charName hloop row hrow
    have hinv : muInv m :=
      muReplaysLoop_inv sp selChar replays [] m
        (fun e he => absurd he (List.not_mem_nil e)) hloop
    simp only [muRows, objValuesStr, List.map_map, List.mem_map] at hrow
    obtain ⟨e, he, hrow⟩ := hrow
    have ha2 : e.2.wins + e.2.losses = e.2.totalGames := hinv e he
    subst hrow
    refine ⟨ha2, ?_⟩
    show (if e.2.totalGames > 0 then e.2.wins / e.2.totalGames * 100 else 0) =
      (if e.2.totalGames > 0 then 100 * e.2.wins / e.2.totalGames else 0)
    split
    · ring
    · rfl

/-- The character-name table used by the witnesses. -/
def exCharName : Nat → String := fun _ => ""

/-- The accumulator produced from the concrete replay. -/
def exCBAcc : CBAcc := ⟨5, 1, 1, 0, 1, 1, 2, 1, 3⟩

/-- A concrete two-player replay: character 5 (player 0) beats
character 9 (player 1), dealing 10 and taking 4 damage. -/
def exReplay2 : Replay :=
  { metaPlayers := [⟨"A"⟩, ⟨"B"⟩], settingsPlayers := [⟨0, 5⟩, ⟨1, 9⟩],
    overall := [⟨0, 1, 2, 3, 10⟩, ⟨1, 0, 0, 0, 4⟩], stocks := [⟨1⟩] }

/-- The matchup accumulator produced from the concrete replay. -/
def exMUAcc : MUAcc := ⟨5, 9, 1, 1, 0, 10, 4⟩

/-- C4 witness: the concrete Character Breakdown and Matchup Analysis
rows computed from the concrete replays satisfy the bookkeeping
identities. -/
theorem agg_rows_consistent_witness :
    ((mkCBRow exCharName exCBAcc).wins + (mkCBRow exCharName exCBAcc).losses =
        (mkCBRow exCharName exCBAcc).totalGames ∧
      (mkCBRow exCharName exCBAcc).winRate =
        (if (mkCBRow exCharName exCBAcc).totalGames > 0 then
          100 * (mkCBRow exCharName exCBAcc).wins /
            (mkCBRow exCharName exCBAcc).totalGames
        else 0)) ∧
      ((mkMURow exCharName exMUAcc).wins + (mkMURow exCharName exMUAcc).losses =
          (mkMURow exCharName exMUAcc).totalGames ∧
        (mkMURow exCharName exMUAcc).winRate =
          (if (mkMURow exCharName exMUAcc).totalGames > 0 then
            100 * (mkMURow exCharName exMUAcc).wins /
              (mkMURow exCharName exMUAcc).totalGames
          else 0)) := by
  constructor
  · apply agg_rows_consistent.1 none [exReplay] [(5, exCBAcc)] exCharName
    · norm_num [cbReplaysLoop, cbProcessReplay, cbPlayerIndices, cbListLoop,
        cbProcessPlayer, cbSelectedPlayerIndex, containsKey, updateAssoc,
        bumpCBAcc, initCBAcc, isWinner, lastStock, listGetInt, exReplay,
        exCBAcc, List.find?]
    · simp [cbRows, objValuesNat, List.mergeSort_singleton]
  · apply agg_rows_consistent.2.1 none (some 5) [exReplay2] [(muKey 5 9, exMUAcc)]
      exCharName
    · norm_num [muReplaysLoop, muProcessReplay, muIndices, muFindPlayerIdx,
        muPlayers, containsKey, updateAssoc, bumpMUAcc, initMUAcc, isWinner,
        lastStock, listGetInt, exReplay2, exMUAcc, List.find?, List.findIdx?]
    · simp [muRows, objValuesStr]

end SlpModel
